import Mathlib

/-!
Verification of the iMessage extractor core (scotm/imessage-extractor)
against its natural-language specification.

The Python modules `database.py`, `parsers.py` and `html_exporter.py` are
shallowly embedded below:

* SQLite rows and tables become Lean structures and lists; SQL joins become
  list comprehensions (`filter`/`flatMap`), `ORDER BY` becomes a stable
  insertion sort (SQLite sorts `NULL` first in ascending order);
* Python integers become `ℤ`, Python floats are modelled exactly over `ℚ`
  (noted at each use), byte strings become `List ℕ`, `None` becomes `none`;
* code that can raise is modelled in `Except PyErr`;
* the observer's local timezone (used by `format_timestamp`) is modelled
  as UTC, matching the repository's own test expectations
  (`tests/test_exports.py` expects `2001-01-01T00:00:00+00:00`).
-/

set_option maxRecDepth 4000

namespace IMX

/-- Exceptions a modelled Python fragment can raise. -/
inductive PyErr where
  | keyError
  | typeError
  | invalidFileException
  | typedstreamError
  | zeroDivisionError
  | textExtractionError
  | oSError
  deriving DecidableEq, Repr

/-! ## TimestampConverter (database.py, apple_to_unix / format_timestamp) -/

/-- Embedding of `IMessageDatabase.apple_to_unix` (database.py lines 34-59).
Python's float division `ts / 1e9` is modelled exactly over the rationals. -/
def apple_to_unix : Option ℤ → Option ℚ
  | none => none
  | some ts =>
    if ts > 10 ^ 12 then some ((ts : ℚ) / 10 ^ 9 + 978307200)
    else some ((ts : ℚ) + 978307200)

/-- The exact value of the converted timestamp in integer nanoseconds.
For `ts > 10^12` the stored value already is nanoseconds; otherwise it is
seconds and is scaled up.  This is the same quantity `apple_to_unix`
returns, kept in exact integer form so that the export pipeline below is
kernel-executable. -/
def apple_to_unix_ns : Option ℤ → Option ℤ
  | none => none
  | some ts =>
    if ts > 10 ^ 12 then some (ts + 978307200 * 10 ^ 9)
    else some (ts * 10 ^ 9 + 978307200 * 10 ^ 9)

/-- The two forms of the conversion agree: the rational returned by
`apple_to_unix` is the nanosecond value divided by `10^9`. -/
theorem apple_to_unix_eq_ns (d : ℤ) :
    ∃ n : ℤ, apple_to_unix_ns (some d) = some n ∧
      apple_to_unix (some d) = some ((n : ℚ) / 10 ^ 9) := by
  rw [apple_to_unix, apple_to_unix_ns]
  by_cases h : d > 10 ^ 12
  · refine ⟨d + 978307200 * 10 ^ 9, by rw [if_pos h], ?_⟩
    rw [if_pos h]
    congr 1
    push_cast
    ring
  · refine ⟨d * 10 ^ 9 + 978307200 * 10 ^ 9, by rw [if_neg h], ?_⟩
    rw [if_neg h]
    congr 1
    push_cast
    field_simp
    ring

/-- Left-pad a string with zeroes to the given width. -/
def zpad (width : ℕ) (s : String) : String :=
  if s.length < width then String.mk (List.replicate (width - s.length) '0') ++ s else s

/-- Days since 1970-01-01 to proleptic-Gregorian (year, month, day); Howard
Hinnant's `civil_from_days`, used here to model Python's `datetime` rendering. -/
def civilFromDays (z0 : ℤ) : ℤ × ℤ × ℤ :=
  let z := z0 + 719468
  let era := Int.fdiv z 146097
  let doe := z - era * 146097
  let yoe := (doe - doe / 1460 + doe / 36524 - doe / 146096) / 365
  let y := yoe + era * 400
  let doy := doe - (365 * yoe + yoe / 4 - yoe / 100)
  let mp := (5 * doy + 2) / 153
  let d := doy - (153 * mp + 2) / 5 + 1
  let m := mp + (if mp < 10 then 3 else (-9))
  (y + (if m ≤ 2 then 1 else 0), m, d)

/-- Rendering of a non-null Unix timestamp (given in exact integer
nanoseconds) the way `IMessageDatabase.format_timestamp` renders it for an
observer in the UTC timezone: ISO-8601 with microseconds when nonzero and a
`+00:00` offset.  Python's `datetime.fromtimestamp` keeps whole
microseconds; the float rounding is modelled as round-half-up on the
nanosecond value. -/
def format_timestamp_ns (n : ℤ) : String :=
  let total : ℤ := Int.fdiv (n + 500) 1000
  let s : ℤ := Int.fdiv total 1000000
  let micro : ℤ := total - s * 1000000
  let days : ℤ := Int.fdiv s 86400
  let sod : ℤ := s - days * 86400
  let ymd := civilFromDays days
  let base := zpad 4 (toString ymd.1) ++ "-" ++ zpad 2 (toString ymd.2.1) ++ "-" ++
    zpad 2 (toString ymd.2.2) ++ "T" ++ zpad 2 (toString (sod / 3600)) ++ ":" ++
    zpad 2 (toString ((sod % 3600) / 60)) ++ ":" ++ zpad 2 (toString (sod % 60))
  let frac := if micro = 0 then "" else "." ++ zpad 6 (toString micro)
  base ++ frac ++ "+00:00"

/-- Embedding of `IMessageDatabase.format_timestamp` (database.py lines
61-75) applied to the nanosecond form of the converted timestamp: `None`
renders as the empty string. -/
def format_timestamp : Option ℤ → String
  | none => ""
  | some n => format_timestamp_ns n

/-- The rendered form of a non-null timestamp always ends in the UTC offset,
so it is never the empty string. -/
theorem format_timestamp_ns_ne_empty (n : ℤ) : format_timestamp_ns n ≠ "" := by
  intro h
  have hlen : (format_timestamp_ns n).length = 0 := by rw [h]; rfl
  unfold format_timestamp_ns at hlen
  simp only [String.length_append] at hlen
  have : ("+00:00" : String).length = 6 := rfl
  omega

example : format_timestamp_ns (978307200 * 10 ^ 9) = "2001-01-01T00:00:00+00:00" := by decide

/-! ## Python string primitives

Helpers over `List Char` modelling the exact Python string operations the
decoder uses.  Character-class predicates model the ASCII fragment of
Python's Unicode-aware `str.isalnum` / `str.isalpha` / `str.isspace`. -/

/-- One list is a prefix of another (used for characters and raw bytes). -/
def isPre {α : Type} [BEq α] : List α → List α → Bool
  | [], _ => true
  | _ :: _, [] => false
  | p :: ps, c :: cs => p == c && isPre ps cs

/-- Python `needle in hay` on strings: substring containment. -/
def hasSub (needle : List Char) : List Char → Bool
  | [] => isPre needle []
  | c :: cs => isPre needle (c :: cs) || hasSub needle cs

/-- Python `hay.split(sep)[0]` for a non-empty separator: the prefix of
`hay` before the first occurrence of `needle` (all of `hay` if absent). -/
def takeBefore (needle : List Char) : List Char → List Char
  | [] => []
  | c :: cs => if isPre needle (c :: cs) then [] else c :: takeBefore needle cs

/-- Python `str.replace` (non-empty pattern): leftmost, non-overlapping. -/
def replaceSub (p : Char) (ps rep : List Char) : List Char → List Char
  | [] => []
  | c :: cs =>
    if isPre (p :: ps) (c :: cs) then rep ++ replaceSub p ps rep (cs.drop ps.length)
    else c :: replaceSub p ps rep cs
termination_by l => l.length
decreasing_by
  · simp only [List.length_drop, List.length_cons]
    omega
  · simp only [List.length_cons]
    omega

/-- String-level wrapper for `replaceSub`. -/
def pyReplace (s pat rep : String) : String :=
  match pat.data with
  | [] => s
  | p :: ps => String.mk (replaceSub p ps rep.data s.data)

/-- Python `str.split(sep)` for a single-character separator. -/
def splitOnChar (sep : Char) : List Char → List (List Char)
  | [] => [[]]
  | c :: cs =>
    let r := splitOnChar sep cs
    if c == sep then [] :: r
    else
      match r with
      | [] => [[c]]
      | h :: t => (c :: h) :: t

/-- ASCII whitespace, the fragment of Python's `str.strip` default set that
this development exercises. -/
def isPyWs (c : Char) : Bool :=
  c == ' ' || c == '\t' || c == '\n' || c == '\r' || c == '\x0b' || c == '\x0c'

/-- Python `str.strip()` (ASCII fragment). -/
def pyStrip (l : List Char) : List Char :=
  ((l.dropWhile isPyWs).reverse.dropWhile isPyWs).reverse

/-- Number of words of Python `str.split()` (split on whitespace runs). -/
def wordCountAux : Bool → List Char → ℕ
  | _, [] => 0
  | inw, c :: cs =>
    if isPyWs c then wordCountAux false cs
    else (if inw then 0 else 1) + wordCountAux true cs

/-- Python `len(s.split())`. -/
def wordCount (l : List Char) : ℕ := wordCountAux false l

/-- ASCII fragment of Python `str.isalpha` (per character). -/
def pyIsAlpha (c : Char) : Bool :=
  ('a' ≤ c && c ≤ 'z') || ('A' ≤ c && c ≤ 'Z')

/-- ASCII fragment of Python `str.isalnum` (per character). -/
def pyIsAlnum (c : Char) : Bool :=
  pyIsAlpha c || ('0' ≤ c && c ≤ '9')

/-- Python `bytes.decode(utf-8, errors=ignore)`: decode UTF-8, silently
dropping bytes of malformed sequences (overlong encodings, surrogates and
out-of-range lead bytes are malformed, as in CPython). -/
def utf8DecodeIgnoreFuel : ℕ → List ℕ → List Char
  | 0, _ => []
  | _, [] => []
  | fuel + 1, b :: rest =>
    if b < 0x80 then Char.ofNat b :: utf8DecodeIgnoreFuel fuel rest
    else if 0xC2 ≤ b ∧ b ≤ 0xDF then
      match rest with
      | b2 :: r2 =>
        if 0x80 ≤ b2 ∧ b2 ≤ 0xBF then
          Char.ofNat ((b - 0xC0) * 64 + (b2 - 0x80)) :: utf8DecodeIgnoreFuel fuel r2
        else utf8DecodeIgnoreFuel fuel rest
      | [] => []
    else if 0xE0 ≤ b ∧ b ≤ 0xEF then
      match rest with
      | b2 :: r2 =>
        if (0x80 ≤ b2 ∧ b2 ≤ 0xBF) ∧ (b ≠ 0xE0 ∨ 0xA0 ≤ b2) ∧ (b ≠ 0xED ∨ b2 ≤ 0x9F) then
          match r2 with
          | b3 :: r3 =>
            if 0x80 ≤ b3 ∧ b3 ≤ 0xBF then
              Char.ofNat ((b - 0xE0) * 4096 + (b2 - 0x80) * 64 + (b3 - 0x80)) ::
                utf8DecodeIgnoreFuel fuel r3
            else utf8DecodeIgnoreFuel fuel r2
          | [] => []
        else utf8DecodeIgnoreFuel fuel rest
      | [] => []
    else if 0xF0 ≤ b ∧ b ≤ 0xF4 then
      match rest with
      | b2 :: r2 =>
        if (0x80 ≤ b2 ∧ b2 ≤ 0xBF) ∧ (b ≠ 0xF0 ∨ 0x90 ≤ b2) ∧ (b ≠ 0xF4 ∨ b2 ≤ 0x8F) then
          match r2 with
          | b3 :: r3 =>
            if 0x80 ≤ b3 ∧ b3 ≤ 0xBF then
              match r3 with
              | b4 :: r4 =>
                if 0x80 ≤ b4 ∧ b4 ≤ 0xBF then
                  Char.ofNat
                      ((b - 0xF0) * 262144 + (b2 - 0x80) * 4096 + (b3 - 0x80) * 64 + (b4 - 0x80)) ::
                    utf8DecodeIgnoreFuel fuel r4
                else utf8DecodeIgnoreFuel fuel r3
              | [] => []
            else utf8DecodeIgnoreFuel fuel r2
          | [] => []
        else utf8DecodeIgnoreFuel fuel rest
      | [] => []
    else utf8DecodeIgnoreFuel fuel rest

/-- The decoder with always-sufficient fuel: every step consumes at least
one input byte and one unit of fuel, so fuel equal to the input length can
never run out. -/
def utf8DecodeIgnore (l : List ℕ) : List Char := utf8DecodeIgnoreFuel l.length l

/-! ## AttributedBodyDecoder, heuristic variant
(`IMessageDatabase._extract_text_from_attributed_body`, database.py 342-390) -/

/-- The binary-marker substrings rejected by the heuristic decoder. -/
def dbMarkers : List (List Char) :=
  ["streamtyped".data, "NSAttributedString".data, "NSObject".data, "NSString".data,
    "__kIM".data, "NSNumber".data]

/-- The punctuation characters counted as printable by the heuristic. -/
def dbPunct : List Char := ['.', ',', '!', '?', ';', ':', '-', '(', ')', '\"', '\x27']

/-- The per-part test-and-extract step of the heuristic decoder: returns the
extracted text when the cleaned part passes every filter.  Mirrors the body
of the `for part in parts` loop (database.py 369-384); the Python float
comparison `ratio > 0.7` is evaluated exactly as `10·count > 7·len`. -/
def dbPartCandidate (part : List Char) : Option (List Char) :=
  let clean0 := part.filter (fun c => 32 ≤ c.toNat || (c == '\n' || c == '\r' || c == '\t' || c == ' '))
  let clean := pyStrip clean0
  if 10 ≤ clean.length ∧ clean.length ≤ 1000 then
    let printable := clean.countP (fun c => pyIsAlnum c || isPyWs c || dbPunct.contains c)
    if 10 * printable > 7 * clean.length ∧ (dbMarkers.all (fun m => !hasSub m clean)) then
      if (['.', '!', '?'].any (fun e => hasSub [e] clean)) ∨ 3 < wordCount clean then
        let clean2 := pyStrip (takeBefore ['i', 'I'] clean)
        if h : clean2 ≠ [] then
          if pyIsAlpha (clean2.head h) then some clean2 else none
        else none
      else none
    else none
  else none

/-- First part of the list for which the heuristic fires. -/
def dbFirstCandidate : List (List Char) → Option (List Char)
  | [] => none
  | p :: ps =>
    match dbPartCandidate p with
    | some t => some t
    | none => dbFirstCandidate ps

/-- Embedding of `IMessageDatabase._extract_text_from_attributed_body`
(database.py lines 342-390) on a non-empty blob: decode UTF-8 ignoring
errors, split on NUL, return the first part passing the heuristic filters,
or the empty string. -/
def dbExtractBody (blob : List ℕ) : String :=
  if blob = [] then ""
  else
    match dbFirstCandidate (splitOnChar '\x00' (utf8DecodeIgnore blob)) with
    | some t => String.mk t
    | none => ""

/-- The same function with the `try`/`except` protocol made explicit: the
body is total (every primitive it uses is), and the catch-all
`except Exception: return ""` means the function can only ever return
normally.  This is the decoder the CSV export calls. -/
def dbExtractBodyE (blob : List ℕ) : Except PyErr String :=
  Except.ok (dbExtractBody blob)

/-! ## AttributedBodyDecoder, library variant
(`TextParser.extract_text_from_attributed_body`, parsers.py 21-108) -/

/-- Values of the Python `plistlib` object model that this development
needs: keyed archives are dictionaries, arrays, strings and integers. -/
inductive PlistVal where
  | str (s : String)
  | int (n : ℤ)
  | dict (entries : List (String × PlistVal))
  | arr (elems : List PlistVal)

/-- Dictionary lookup, first match (Python dict with unique keys). -/
def PlistVal.lookup (entries : List (String × PlistVal)) (k : String) : Option PlistVal :=
  match entries with
  | [] => none
  | (k2, v) :: t => if k2 = k then some v else PlistVal.lookup t k

/-- Modelled from CPython `plistlib.loads`: a binary plist shorter than its
mandatory 32-byte trailer raises `InvalidFileException` (the parser seeks 32
bytes back from the end before anything else).  Longer well-formed inputs
are outside the fragment this development needs and are conservatively
mapped to the same exception; no theorem below depends on that region. -/
def plistlib_loads (blob : List ℕ) : Except PyErr PlistVal :=
  if blob.length < 32 then Except.error PyErr.invalidFileException
  else Except.error PyErr.invalidFileException

/-- Opaque stand-in for a decoded `typedstream` archive. -/
structure TypedStream where
  contents : List String

/-- Modelled from the `typedstream` library: unarchiving is outside the
fragment this development needs and is conservatively an error; no theorem
below depends on a successful typedstream decode. -/
def typedstream_unarchive (_blob : List ℕ) : Except PyErr TypedStream :=
  Except.error PyErr.typedstreamError

/-- Embedding of `TextParser._convert_escaped_characters` (parsers.py
134-147). -/
def convert_escaped_characters (s : String) : String :=
  let s := pyReplace (pyReplace (pyReplace s "\\n" "\n") "\\t" "\t") "\\r" "\r"
  pyReplace (pyReplace (pyReplace s "\\u200a" "\u200A") "\\u200b" "\u200B") "\\u200c" "\u200C"

/-- The object-replacement character stripped from decoded bodies. -/
def OBJECT_REPLACEMENT_CHAR : String := "\uFFFC"

/-- The `bplist00` magic bytes. -/
def bplistMagic : List ℕ := [0x62, 0x70, 0x6C, 0x69, 0x73, 0x74, 0x30, 0x30]

/-- The keyed-archive navigation of `TextParser.extract_text_from_attributed_body`
(parsers.py lines 45-71): resolve `$top.root` through `CF$UID` indirections
to the `NS.string` member; every failed shape check falls through to the
empty string. -/
def parserBplistBranch (plist_data : PlistVal) : String :=
  match plist_data with
  | PlistVal.dict entries =>
    match PlistVal.lookup entries "$objects", PlistVal.lookup entries "$top" with
    | some (PlistVal.arr objects), some (PlistVal.dict top) =>
      match PlistVal.lookup top "root" with
      | some (PlistVal.dict rootRef) =>
        match PlistVal.lookup rootRef "CF$UID" with
        | some (PlistVal.int rootUid) =>
          if h : 0 ≤ rootUid ∧ rootUid.toNat < objects.length then
            match objects.get ⟨rootUid.toNat, h.2⟩ with
            | PlistVal.dict rootObj =>
              match PlistVal.lookup rootObj "NS.string" with
              | some (PlistVal.dict stringRef) =>
                match PlistVal.lookup stringRef "CF$UID" with
                | some (PlistVal.int stringUid) =>
                  if h2 : 0 ≤ stringUid ∧ stringUid.toNat < objects.length then
                    match objects.get ⟨stringUid.toNat, h2.2⟩ with
                    | PlistVal.str s =>
                      pyReplace (convert_escaped_characters s) OBJECT_REPLACEMENT_CHAR ""
                    | _ => ""
                  else ""
                | _ => ""
              | _ => ""
            | _ => ""
          else ""
        | _ => ""
      | _ => ""
    | _, _ => ""
  | _ => ""

/-- Embedding of the `try` body of
`TextParser.extract_text_from_attributed_body` (parsers.py lines 43-106):
dispatch on the `bplist00` magic to either the keyed-archive branch or the
typedstream branch.  The typedstream post-processing (lines 80-105) is
modelled in outline only, because `typedstream_unarchive` above never
succeeds; no theorem depends on it. -/
def parserExtractRaw (blob : List ℕ) : Except PyErr String :=
  if blob = [] then Except.ok ""
  else if isPre bplistMagic blob then do
    let plist_data ← plistlib_loads blob
    pure (parserBplistBranch plist_data)
  else do
    let stream ← typedstream_unarchive blob
    match stream.contents with
    | [] => pure ""
    | first :: _ =>
      pure (pyReplace (convert_escaped_characters first) OBJECT_REPLACEMENT_CHAR "")

/-- Embedding of `TextParser.extract_text_from_attributed_body` including
its exception protocol (parsers.py lines 107-108): any exception from the
body is re-raised as `TextExtractionError` — the function does NOT return
the empty string on decode failure. -/
def parserExtract (blob : List ℕ) : Except PyErr String :=
  match parserExtractRaw blob with
  | Except.ok s => Except.ok s
  | Except.error _ => Except.error PyErr.textExtractionError

/-- Bytes of a pure-ASCII string. -/
def asciiBytes (s : String) : List ℕ := s.data.map Char.toNat

example : dbExtractBody (asciiBytes "Hello there my friend.") = "Hello there my friend." := by
  decide

example : dbExtractBody [] = "" := by decide

/-! ## The store model (SQLite tables as lists of rows) -/

/-- A row of the `chat` table. -/
structure ChatRow where
  rowid : ℤ
  guid : Option String
  chat_identifier : Option String
  display_name : Option String
  deriving DecidableEq, Repr

/-- A row of the `handle` table. -/
structure HandleRow where
  rowid : ℤ
  id : String
  deriving DecidableEq, Repr

/-- A row of the `chat_handle_join` table. -/
structure ChatHandleJoin where
  chat_id : ℤ
  handle_id : ℤ
  deriving DecidableEq, Repr

/-- A row of the `message` table (the columns the exports read). -/
structure MessageRow where
  rowid : ℤ
  text : Option String
  attributedBody : Option (List ℕ)
  is_from_me : Option ℤ
  handle_id : Option ℤ
  service : Option String
  date : Option ℤ
  associated_message_guid : Option String
  thread_originator_guid : Option String
  item_type : Option ℤ
  deriving DecidableEq, Repr

/-- A row of the `chat_message_join` table. -/
structure ChatMessageJoin where
  chat_id : ℤ
  message_id : ℤ
  deriving DecidableEq, Repr

/-- A row of the `attachment` table. -/
structure AttachmentRow where
  rowid : ℤ
  filename : Option String
  transfer_name : Option String
  mime_type : Option String
  deriving DecidableEq, Repr

/-- A row of the `message_attachment_join` table. -/
structure MessageAttachmentJoin where
  message_id : ℤ
  attachment_id : ℤ
  deriving DecidableEq, Repr

/-- The message store: the seven tables the exports read. -/
structure Db where
  chat : List ChatRow
  handle : List HandleRow
  chat_handle_join : List ChatHandleJoin
  message : List MessageRow
  chat_message_join : List ChatMessageJoin
  attachment : List AttachmentRow
  message_attachment_join : List MessageAttachmentJoin
  deriving DecidableEq, Repr

/-! ## find_chat_by_participant (database.py 115-161) -/

/-- SQLite's ASCII case folding (LIKE is case-insensitive for ASCII only). -/
def sqliteFold (c : Char) : Char :=
  if 'A' ≤ c ∧ c ≤ 'Z' then Char.ofNat (c.toNat + 32) else c

/-- SQLite `LIKE` pattern matching: `%` matches any run, `_` any single
character, everything else matches up to ASCII case folding.  Written with
a fuel parameter (every step consumes pattern or subject, so
`pattern + subject + 1` units never run out) to stay kernel-executable. -/
def likeMatchFuel : ℕ → List Char → List Char → Bool
  | 0, _, _ => false
  | _ + 1, [], [] => true
  | _ + 1, [], _ :: _ => false
  | fuel + 1, '%' :: ps, s =>
    likeMatchFuel fuel ps s ||
      match s with
      | [] => false
      | _ :: s2 => likeMatchFuel fuel ('%' :: ps) s2
  | fuel + 1, '_' :: ps, s =>
    match s with
    | [] => false
    | _ :: s2 => likeMatchFuel fuel ps s2
  | fuel + 1, p :: ps, s =>
    match s with
    | [] => false
    | c :: s2 => sqliteFold p == sqliteFold c && likeMatchFuel fuel ps s2

/-- SQLite `LIKE`, with always-sufficient fuel. -/
def likeMatch (p s : List Char) : Bool := likeMatchFuel (p.length + s.length + 1) p s

/-- The pattern `%substring%` built by the f-string in
`find_chat_by_participant` (database.py line 145). -/
def likeParam (substring : String) : List Char :=
  '%' :: (substring.data ++ ['%'])

/-- A result row of `find_chat_by_participant`. -/
structure FoundChat where
  rowid : ℤ
  guid : Option String
  chat_identifier : Option String
  display_name : Option String
  participants : Option String
  deriving DecidableEq, Repr

/-- The participant identifiers of one chat that pass the `WHERE h.id LIKE ?`
filter, in join order: the filter runs before grouping, so the later
`GROUP_CONCAT` only sees these. -/
def matchingParticipants (db : Db) (substring : String) (chatId : ℤ) : List String :=
  (db.chat_handle_join.filter (fun j => j.chat_id == chatId)).flatMap fun j =>
    (db.handle.filter (fun h => h.rowid == j.handle_id)).filterMap fun h =>
      if likeMatch (likeParam substring) h.id.data then some h.id else none

/-- Embedding of `IMessageDatabase.find_chat_by_participant` (database.py
lines 115-161): inner joins of `chat`, `chat_handle_join` and `handle`,
filtered by `h.id LIKE '%substring%'`, grouped per chat (`rowid` is part of
the grouping key, so each chat yields at most one row), with
`GROUP_CONCAT(h.id, ', ')` over the rows that survived the filter.  Group
output order is modelled as `chat`-table order. -/
def find_chat_by_participant (db : Db) (substring : String) : List FoundChat :=
  db.chat.filterMap fun c =>
    match matchingParticipants db substring c.rowid with
    | [] => none
    | ps =>
      some { rowid := c.rowid, guid := c.guid, chat_identifier := c.chat_identifier,
             display_name := c.display_name,
             participants := some (String.intercalate ", " ps) }

/-! ## CSV export (`IMessageDatabase.export_chat_to_csv`, database.py 163-237) -/

/-- A row of the CSV export's join query (database.py lines 180-205). -/
structure CsvJoinRow where
  message_id : ℤ
  text : Option String
  attributedBody : Option (List ℕ)
  is_from_me : Option ℤ
  handle_identifier : Option String
  service : Option String
  date : Option ℤ
  attachment_path : Option String
  attachment_name : Option String
  attachment_mime : Option String
  deriving DecidableEq, Repr

/-- `LEFT JOIN handle h ON h.rowid = m.handle_id`: a null `handle_id` or a
missing handle contributes a single all-null joined row. -/
def handleLeft (db : Db) (hid : Option ℤ) : List (Option HandleRow) :=
  match db.handle.filter (fun h => hid == some h.rowid) with
  | [] => [none]
  | hs => hs.map some

/-- `LEFT JOIN message_attachment_join ... LEFT JOIN attachment ...`: a
message without join rows yields one null attachment; each join row yields
its matching attachments (or one null row if the attachment is missing). -/
def attLeft (db : Db) (mid : ℤ) : List (Option AttachmentRow) :=
  match db.message_attachment_join.filter (fun j => j.message_id == mid) with
  | [] => [none]
  | majs =>
    majs.flatMap fun maj =>
      match db.attachment.filter (fun a => a.rowid == maj.attachment_id) with
      | [] => [none]
      | hits => hits.map some

/-- The unsorted result set of the CSV join query for one chat. -/
def csvJoinRows (db : Db) (chatRowid : ℤ) : List CsvJoinRow :=
  (db.chat_message_join.filter (fun j => j.chat_id == chatRowid)).flatMap fun j =>
    (db.message.filter (fun m => m.rowid == j.message_id)).flatMap fun m =>
      (handleLeft db m.handle_id).flatMap fun h =>
        (attLeft db m.rowid).map fun a =>
          { message_id := m.rowid, text := m.text, attributedBody := m.attributedBody,
            is_from_me := m.is_from_me, handle_identifier := h.map HandleRow.id,
            service := m.service, date := m.date,
            attachment_path := a.bind AttachmentRow.filename,
            attachment_name := a.bind AttachmentRow.transfer_name,
            attachment_mime := a.bind AttachmentRow.mime_type }

/-- Strict order on nullable integers with `NULL` least (SQLite `ASC`). -/
def optLtB : Option ℤ → Option ℤ → Bool
  | none, none => false
  | none, some _ => true
  | some _, none => false
  | some a, some b => decide (a < b)

/-- `ORDER BY date ASC, rowid ASC` as a total preorder on (date, id) keys. -/
def dateIdLeB (a b : Option ℤ × ℤ) : Bool :=
  optLtB a.1 b.1 || (a.1 == b.1 && decide (a.2 ≤ b.2))

theorem dateIdLeB_total (a b : Option ℤ × ℤ) : dateIdLeB a b = true ∨ dateIdLeB b a = true := by
  rcases a with ⟨a1, a2⟩
  rcases b with ⟨b1, b2⟩
  rcases a1 with _ | x <;> rcases b1 with _ | y <;>
    simp [dateIdLeB, optLtB] <;> omega

theorem dateIdLeB_trans {a b c : Option ℤ × ℤ} (h1 : dateIdLeB a b = true)
    (h2 : dateIdLeB b c = true) : dateIdLeB a c = true := by
  rcases a with ⟨a1, a2⟩
  rcases b with ⟨b1, b2⟩
  rcases c with ⟨c1, c2⟩
  rcases a1 with _ | x <;> rcases b1 with _ | y <;> rcases c1 with _ | z <;>
    simp_all [dateIdLeB, optLtB] <;> omega

/-- The CSV query's `ORDER BY m.date ASC, m.rowid ASC` on join rows. -/
def csvOrd (r s : CsvJoinRow) : Prop :=
  dateIdLeB (r.date, r.message_id) (s.date, s.message_id) = true

instance : DecidableRel csvOrd := fun _ _ => inferInstanceAs (Decidable (_ = true))

instance : IsTotal CsvJoinRow csvOrd := ⟨fun _ _ => dateIdLeB_total _ _⟩

instance : IsTrans CsvJoinRow csvOrd := ⟨fun _ _ _ => dateIdLeB_trans⟩

/-- The sorted result set of the CSV join query.  SQLite's sort order among
rows with equal keys is unspecified; it is modelled as the stable order. -/
def csvSortedRows (db : Db) (chatRowid : ℤ) : List CsvJoinRow :=
  List.insertionSort csvOrd (csvJoinRows db chatRowid)

/-- Message-body resolution in the CSV row loop (database.py lines 218-223):
a truthy `text` column wins, else a truthy `attributedBody` is decoded, else
the empty string. -/
def csvMessageText (r : CsvJoinRow) : String :=
  match r.text with
  | some t => if t ≠ "" then t else csvBodyFallback r
  | none => csvBodyFallback r
where
  /-- The `elif r[attributedBody]` arm. -/
  csvBodyFallback (r : CsvJoinRow) : String :=
    match r.attributedBody with
    | some b => if b ≠ [] then dbExtractBody b else ""
    | none => ""

/-- One emitted CSV data row (database.py lines 225-235), as the list of
cell values handed to `csv.writer` (integers rendered in decimal, as
`csv.writer` does via `str`). -/
def csvRenderRow (r : CsvJoinRow) : List String :=
  [toString r.message_id,
    format_timestamp (apple_to_unix_ns r.date),
    toString (r.is_from_me.getD 0),
    r.handle_identifier.getD "",
    pyReplace (csvMessageText r) "\r\n" "\n",
    r.service.getD "",
    r.attachment_name.getD "",
    r.attachment_mime.getD "",
    r.attachment_path.getD ""]

/-- The CSV header row (database.py lines 211-214). -/
def csvHeader : List String :=
  ["message_id", "timestamp_local_iso", "from_me", "sender_identifier",
    "text", "service", "attachment_name", "attachment_mime", "attachment_path"]

/-- Embedding of `IMessageDatabase.export_chat_to_csv` (database.py lines
163-237): the full sequence of rows written to the CSV file. -/
def export_chat_to_csv (db : Db) (chatRowid : ℤ) : List (List String) :=
  csvHeader :: (csvSortedRows db chatRowid).map csvRenderRow

/-! ## JSON export (`IMessageDatabase.export_all_chats_to_json`, database.py 239-340) -/

/-- Lexicographic `≤` on character lists by code point — Python's string
comparison (`String.lt` itself is not kernel-reducible, so the order is
spelled out). -/
def listLeB : List Char → List Char → Bool
  | [], _ => true
  | _ :: _, [] => false
  | a :: as2, b :: bs => if a.toNat = b.toNat then listLeB as2 bs else decide (a.toNat < b.toNat)

theorem listLeB_total (a b : List Char) : listLeB a b = true ∨ listLeB b a = true := by
  induction a generalizing b with
  | nil => left; rfl
  | cons x xs ih =>
    cases b with
    | nil => right; rfl
    | cons y ys =>
      simp only [listLeB]
      by_cases e : x.toNat = y.toNat
      · rw [if_pos e, if_pos e.symm]
        exact ih ys
      · rw [if_neg e, if_neg (fun h => e h.symm)]
        simp only [decide_eq_true_eq]
        omega

theorem listLeB_trans {a b c : List Char} (h1 : listLeB a b = true)
    (h2 : listLeB b c = true) : listLeB a c = true := by
  induction a generalizing b c with
  | nil => rfl
  | cons x xs ih =>
    cases b with
    | nil => simp [listLeB] at h1
    | cons y ys =>
      cases c with
      | nil => simp [listLeB] at h2
      | cons z zs =>
        simp only [listLeB] at h1 h2 ⊢
        by_cases e1 : x.toNat = y.toNat <;> by_cases e2 : y.toNat = z.toNat
        · rw [if_pos e1] at h1
          rw [if_pos e2] at h2
          rw [if_pos (e1.trans e2)]
          exact ih h1 h2
        · rw [if_pos e1] at h1
          rw [if_neg e2] at h2
          rw [if_neg (by omega)]
          simp only [decide_eq_true_eq] at h2 ⊢
          omega
        · rw [if_neg e1] at h1
          rw [if_pos e2] at h2
          rw [if_neg (by omega)]
          simp only [decide_eq_true_eq] at h1 ⊢
          omega
        · rw [if_neg e1] at h1
          rw [if_neg e2] at h2
          simp only [decide_eq_true_eq] at h1 h2
          by_cases e3 : x.toNat = z.toNat
          · exfalso
            omega
          · rw [if_neg e3]
            simp only [decide_eq_true_eq]
            omega

/-- A JSON attachment record (`name`, `mime`, `path`). -/
structure JsonAtt where
  name : Option String
  mime : Option String
  path : Option String
  deriving DecidableEq, Repr

/-- A JSON message record (database.py lines 317-328). -/
structure JsonMsg where
  id : ℤ
  timestamp : Option String
  from_me : Bool
  sender : Option String
  service : Option String
  text : Option String
  item_type : Option ℤ
  associated_message_guid : Option String
  thread_originator_guid : Option String
  attachments : List JsonAtt
  deriving DecidableEq, Repr

/-- A JSON chat record (database.py lines 306-312). -/
structure JsonChat where
  chat_guid : Option String
  display_name : Option String
  chat_identifier : Option String
  participants : List String
  messages : List JsonMsg
  deriving DecidableEq, Repr

/-- A row of the chats query (database.py lines 257-266), with
`GROUP_CONCAT(h.id, ',')` participants. -/
structure ChatQueryRow where
  rowid : ℤ
  guid : Option String
  chat_identifier : Option String
  display_name : Option String
  participants : Option String
  deriving DecidableEq, Repr

/-- `GROUP_CONCAT` of the left-joined handles of one chat: `NULL` when the
chat has no joined handles. -/
def chatParticipantsConcat (db : Db) (cid : ℤ) : Option String :=
  match (db.chat_handle_join.filter (fun j => j.chat_id == cid)).flatMap
      (fun j => (db.handle.filter (fun h => h.rowid == j.handle_id)).map HandleRow.id) with
  | [] => none
  | ps => some (String.intercalate "," ps)

/-- `ORDER BY c.rowid` on chat query rows. -/
def chatRowidOrd (a b : ChatQueryRow) : Prop := a.rowid ≤ b.rowid

instance : DecidableRel chatRowidOrd := fun a b => inferInstanceAs (Decidable (a.rowid ≤ b.rowid))

instance : IsTotal ChatQueryRow chatRowidOrd := ⟨fun a b => Int.le_total a.rowid b.rowid⟩

instance : IsTrans ChatQueryRow chatRowidOrd := ⟨fun _ _ _ => Int.le_trans⟩

/-- The chats query (database.py lines 257-266). -/
def jsonChatRows (db : Db) : List ChatQueryRow :=
  List.insertionSort chatRowidOrd
    (db.chat.map fun c =>
      { rowid := c.rowid, guid := c.guid, chat_identifier := c.chat_identifier,
        display_name := c.display_name, participants := chatParticipantsConcat db c.rowid })

/-- A row of the messages query (database.py lines 269-281). -/
structure MsgQueryRow where
  chat_id : ℤ
  message_id : ℤ
  text : Option String
  is_from_me : Option ℤ
  sender : Option String
  service : Option String
  date : Option ℤ
  associated_message_guid : Option String
  thread_originator_guid : Option String
  item_type : Option ℤ
  deriving DecidableEq, Repr

/-- `ORDER BY m.date ASC, m.rowid ASC` on message query rows. -/
def msgDateOrd (a b : MsgQueryRow) : Prop :=
  dateIdLeB (a.date, a.message_id) (b.date, b.message_id) = true

instance : DecidableRel msgDateOrd := fun _ _ => inferInstanceAs (Decidable (_ = true))

instance : IsTotal MsgQueryRow msgDateOrd := ⟨fun _ _ => dateIdLeB_total _ _⟩

instance : IsTrans MsgQueryRow msgDateOrd := ⟨fun _ _ _ => dateIdLeB_trans⟩

/-- The messages query (database.py lines 269-281): all chats at once, inner
join with `message`, left join with `handle`, ordered by `(date, rowid)`. -/
def jsonMsgRows (db : Db) : List MsgQueryRow :=
  List.insertionSort msgDateOrd
    (db.chat_message_join.flatMap fun j =>
      (db.message.filter (fun m => m.rowid == j.message_id)).flatMap fun m =>
        (handleLeft db m.handle_id).map fun h =>
          { chat_id := j.chat_id, message_id := m.rowid, text := m.text,
            is_from_me := m.is_from_me, sender := h.map HandleRow.id,
            service := m.service, date := m.date,
            associated_message_guid := m.associated_message_guid,
            thread_originator_guid := m.thread_originator_guid,
            item_type := m.item_type })

/-- The attachments query (database.py lines 284-294), keyed by message id:
it joins `chat_message_join` as well, so an attachment row repeats once per
chat its message belongs to. -/
def attsQueryRows (db : Db) : List (ℤ × JsonAtt) :=
  db.message_attachment_join.flatMap fun maj =>
    (db.attachment.filter (fun a => a.rowid == maj.attachment_id)).flatMap fun a =>
      (db.chat_message_join.filter (fun j => j.message_id == maj.message_id)).map fun _ =>
        (maj.message_id, { name := a.transfer_name, mime := a.mime_type, path := a.filename })

/-- `att_map.get(message_id, [])` (database.py lines 297-301), in query
order, as `setdefault`/`append` builds it. -/
def attFor (db : Db) (mid : ℤ) : List JsonAtt :=
  (attsQueryRows db).filterMap fun p => if p.1 == mid then some p.2 else none

/-- Python `[p for p in (participants or "").split(",") if p]`
(database.py line 310). -/
def participantsList (p : Option String) : List String :=
  (splitOnChar ',' (p.getD "").data).filterMap fun l =>
    if l = [] then none else some (String.mk l)

/-- One JSON message record (database.py lines 317-328): the timestamp is
rendered only when the converted value is truthy (non-null and nonzero),
`from_me` is `bool(is_from_me)`, `text` is the raw column. -/
def mkJsonMsg (db : Db) (m : MsgQueryRow) : JsonMsg :=
  { id := m.message_id,
    timestamp :=
      match apple_to_unix_ns m.date with
      | none => none
      | some n => if n = 0 then none else some (format_timestamp_ns n),
    from_me := match m.is_from_me with | none => false | some v => !(v == 0),
    sender := m.sender, service := m.service, text := m.text, item_type := m.item_type,
    associated_message_guid := m.associated_message_guid,
    thread_originator_guid := m.thread_originator_guid,
    attachments := attFor db m.message_id }

/-- The per-chat message sort `messages.sort(key=lambda x: x.timestamp or "")`
(database.py line 333). -/
def msgStrOrd (a b : JsonMsg) : Prop :=
  listLeB (a.timestamp.getD "").data (b.timestamp.getD "").data = true

instance : DecidableRel msgStrOrd := fun _ _ => inferInstanceAs (Decidable (_ = true))

instance : IsTotal JsonMsg msgStrOrd := ⟨fun _ _ => listLeB_total _ _⟩

instance : IsTrans JsonMsg msgStrOrd := ⟨fun _ _ _ => listLeB_trans⟩

/-- The list of chat records in `chat_map` order (ascending chat rowid),
each with its grouped, string-key-sorted messages (database.py 303-333). -/
def jsonResultUnsorted (db : Db) : List JsonChat :=
  (jsonChatRows db).map fun c =>
    { chat_guid := c.guid, display_name := c.display_name,
      chat_identifier := c.chat_identifier,
      participants := participantsList c.participants,
      messages :=
        List.insertionSort msgStrOrd
          (((jsonMsgRows db).filter (fun m => m.chat_id == c.rowid)).map (mkJsonMsg db)) }

/-- The chat sort key (database.py line 334): the last message's timestamp
(possibly `None`), or `""` for a chat with no messages. -/
def chatKey (c : JsonChat) : Option String :=
  match c.messages.getLast? with
  | none => some ""
  | some m => m.timestamp

/-- `result.sort(key=..., reverse=True)`: descending comparison of the
string keys (only used when no key is `None`). -/
def chatOrd (a b : JsonChat) : Prop :=
  listLeB ((chatKey b).getD "").data ((chatKey a).getD "").data = true

instance : DecidableRel chatOrd := fun _ _ => inferInstanceAs (Decidable (_ = true))

instance : IsTotal JsonChat chatOrd := ⟨fun _ _ => (listLeB_total _ _).symm⟩

instance : IsTrans JsonChat chatOrd := ⟨fun _ _ _ h1 h2 => listLeB_trans h2 h1⟩

/-- Embedding of `IMessageDatabase.export_all_chats_to_json` (database.py
lines 239-340).  Two genuine Python failure modes are made explicit:
`chat_map[m.chat_id]` raises `KeyError` when a joined message references a
chat row that does not exist, and the final sort raises `TypeError` when it
compares a `None` key (a chat whose messages all lack timestamps) with a
string, which happens whenever at least two chats are present and some key
is `None`. -/
def export_all_chats_to_json (db : Db) : Except PyErr (List JsonChat) :=
  if (jsonMsgRows db).all (fun m => db.chat.any (fun c => c.rowid == m.chat_id)) then
    let result := jsonResultUnsorted db
    if 2 ≤ result.length ∧ result.any (fun c => chatKey c = none) then
      Except.error PyErr.typeError
    else Except.ok (List.insertionSort chatOrd result)
  else Except.error PyErr.keyError

/-! ## HTML export attachment materialization
(`HTMLExporter._copy_attachment` / `export_chat`, html_exporter.py 93-199)

Path strings are modelled with pure embeddings of the `os.path` functions
the code calls (POSIX behaviour; `expanduser` of a `~user` form with an
unknown user returns its input unchanged, and `normpath` of a leading `//`
is modelled like a single `/`).  The filesystem and the MIME/image/copy
collaborators are an explicit environment. -/

/-- ASCII lowercasing (`str.lower`, ASCII fragment — MIME strings). -/
def lowerAscii (s : String) : String := String.mk (s.data.map sqliteFold)

/-- `os.path.normpath` component processing: drop empty and `.` parts, fold
`..` against the previous part (at the root of an absolute path `..` is
dropped; a relative path keeps leading `..` parts). -/
def normParts (isAbs : Bool) : List (List Char) → List (List Char) → List (List Char)
  | acc, [] => acc.reverse
  | acc, p :: ps =>
    if p = [] ∨ p = ['.'] then normParts isAbs acc ps
    else if p = ['.', '.'] then
      match acc with
      | [] => if isAbs then normParts isAbs [] ps else normParts isAbs [p] ps
      | q :: qs =>
        if q = ['.', '.'] then normParts isAbs (p :: acc) ps else normParts isAbs qs ps
    else normParts isAbs (p :: acc) ps

/-- `os.path.normpath` (POSIX). -/
def normpath (s : String) : String :=
  if s = "" then "."
  else
    let l := s.data
    let isAbs := isPre ['/'] l
    let parts := normParts isAbs [] (splitOnChar '/' l)
    let body := String.intercalate "/" (parts.map String.mk)
    if isAbs then "/" ++ body
    else if parts = [] then "." else body

/-- `os.path.expanduser` with the observer's home directory: expands a
leading `~` or `~/`; other forms are returned unchanged. -/
def expanduser (home : String) (p : String) : String :=
  if p = "~" then home
  else if isPre ['~', '/'] p.data then home ++ String.mk (p.data.drop 1)
  else p

/-- `os.path.join` of two components (POSIX): an absolute second component
wins. -/
def pathJoin (a b : String) : String :=
  if isPre ['/'] b.data then b
  else if a = "" then b
  else if a.data.getLast? = some '/' then a ++ b
  else a ++ "/" ++ b

/-- `os.path.basename`. -/
def basename (p : String) : String :=
  String.mk ((splitOnChar '/' p.data).getLastD [])

/-- Characters before the last `.` of a slash-free name (the whole name if
it has no dot). -/
def dropLastDotSuffix (l : List Char) : List Char :=
  match l.reverse.dropWhile (fun c => !(c == '.')) with
  | [] => l
  | _ :: rest => rest.reverse

/-- `os.path.splitext(...)[0]` for a slash-free name: leading dots do not
start an extension. -/
def splitextBase (s : String) : String :=
  let l := s.data
  let lead := l.takeWhile (fun c => c == '.')
  let rest := l.drop lead.length
  String.mk (lead ++ dropLastDotSuffix rest)

/-- The environment `_copy_attachment` interacts with: which paths exist on
disk, the black-box MIME sniffer, the observer's home directory, and
whether PIL image re-encoding / `shutil.copy` succeed for a given source. -/
structure CopyEnv where
  present : String → Bool
  detectMime : String → String
  home : String
  imageOk : String → Bool
  copyOk : String → Bool

/-- The record `_copy_attachment` returns on success. -/
structure MaterializedAtt where
  copied_path : String
  mime : String
  name : String
  deriving DecidableEq, Repr

/-- The source-path resolution of `_copy_attachment` (html_exporter.py
lines 104-106): expand the user directory; if that path does not exist,
fall back to joining under the attachment root. -/
def resolvedSource (env : CopyEnv) (attachmentRoot : String) (pn : String) : String :=
  let fullA := expanduser env.home pn
  if env.present fullA then fullA else pathJoin attachmentRoot pn

/-- Embedding of `HTMLExporter._copy_attachment` (html_exporter.py lines
93-175).  The result carries the source path that was read, pairing the
returned record with the observable side effect the safety claim is about.
`Except.ok none` is the Python `return {}`; a failing `shutil.copy` in the
non-image branch is uncaught in Python and is an error here. -/
def copy_attachment (env : CopyEnv) (outputDir attachmentRoot : String)
    (att : JsonAtt) (messageId : ℤ) : Except PyErr (Option (String × MaterializedAtt)) :=
  match att.path with
  | none => Except.ok none
  | some p0 =>
    if p0 = "" then Except.ok none
    else
      let pn := normpath p0
      if isPre ['/'] pn.data || isPre ['.', '.', '/'] pn.data then Except.ok none
      else
        let full := resolvedSource env attachmentRoot pn
        if !env.present full then Except.ok none
        else
          let baseNew := toString messageId ++ "_" ++ basename pn
          let mime := lowerAscii (env.detectMime full)
          let isImage := isPre ("image/".data) mime.data
          let subDir :=
            if isImage then "images"
            else if isPre ("video/".data) mime.data then "videos"
            else if isPre ("audio/".data) mime.data then "audio"
            else "documents"
          let newFilename := if isImage then splitextBase baseNew ++ ".png" else baseNew
          let rel := "attachments/" ++ subDir ++ "/" ++ newFilename
          let nameOut := att.name.getD ""
          if isImage then
            if env.imageOk full then
              Except.ok (some (full, { copied_path := rel, mime := "image/png", name := nameOut }))
            else if env.copyOk full then
              Except.ok (some (full, { copied_path := rel, mime := mime, name := nameOut }))
            else Except.ok none
          else
            if env.copyOk full then
              Except.ok (some (full, { copied_path := rel, mime := mime, name := nameOut }))
            else Except.error PyErr.oSError

/-- A processed message of the HTML export: the original record with its
attachments replaced by the materialized ones. -/
structure HtmlMsg where
  base : JsonMsg
  attachments : List MaterializedAtt
  deriving DecidableEq, Repr

/-- The message loop of `HTMLExporter.export_chat` (html_exporter.py lines
189-199): every message is kept; for a message with attachments, each
attachment is materialized and only the non-empty results are retained. -/
def export_chat_process (env : CopyEnv) (outputDir attachmentRoot : String)
    (msgs : List JsonMsg) : Except PyErr (List HtmlMsg) :=
  msgs.mapM fun msg =>
    if msg.attachments = [] then pure { base := msg, attachments := [] }
    else do
      let copies ← msg.attachments.mapM
        (fun att => copy_attachment env outputDir attachmentRoot att msg.id)
      pure { base := msg, attachments := copies.filterMap (fun c => c.map Prod.snd) }

/-! ## General counting helpers -/

theorem sum_map_ones {α : Type} {l : List α} {f : α → ℕ} (h : ∀ a ∈ l, f a = 1) :
    (l.map f).sum = l.length := by
  induction l with
  | nil => rfl
  | cons a t ih =>
    simp only [List.map_cons, List.sum_cons, List.length_cons, h a (by simp),
      ih (fun x hx => h x (by simp [hx]))]
    omega

theorem sum_map_ite {α : Type} (l : List α) (q : α → Bool) (K : ℕ) :
    (l.map (fun a => if q a then K else 0)).sum = K * l.countP q := by
  induction l with
  | nil => simp
  | cons a t ih =>
    by_cases hq : q a = true
    · simp [List.countP_cons, hq, ih]
      ring
    · simp [List.countP_cons, hq, ih]

/-- Filtering a list by an integer key that occurs without duplicates keeps
exactly one element when the key is present and none otherwise. -/
theorem filter_key_length {α : Type} (l : List α) (key : α → ℤ) (k : ℤ)
    (h : (l.map key).Nodup) :
    (l.filter (fun a => key a == k)).length = if k ∈ l.map key then 1 else 0 := by
  induction l with
  | nil => simp
  | cons a t ih =>
    simp only [List.map_cons, List.nodup_cons] at h
    obtain ⟨hna, ht⟩ := h
    by_cases e : key a = k
    · subst e
      rw [List.filter_cons_of_pos (by simp)]
      have hnot : ¬ key a ∈ t.map key := hna
      simp [ih ht, hnot]
    · rw [List.filter_cons_of_neg (by simp [e])]
      rw [ih ht]
      simp [Ne.symm e]

/-! ## Claim theorems -/

/-- C1: for every integer `t`, `apple_to_unix` adds the 978307200-second epoch
offset directly when `t ≤ 10^12` and divides by `10^9` first when `t > 10^12`;
a null input yields a null output and never an error. -/
theorem c1_apple_to_unix_spec :
    (∀ t : ℤ, apple_to_unix (some t) =
      some (if t ≤ 10 ^ 12 then (t : ℚ) + 978307200 else (t : ℚ) / 10 ^ 9 + 978307200)) ∧
    apple_to_unix none = none := by
  refine ⟨fun t => ?_, rfl⟩
  by_cases h : t ≤ 10 ^ 12
  · rw [apple_to_unix, if_neg (by omega), if_pos h]
  · rw [apple_to_unix, if_pos (by omega), if_neg h]

/-- C2 counterexample: the claim says the attributed-body decoder never
raises, but `TextParser.extract_text_from_attributed_body` re-raises any
decode failure as `TextExtractionError` (parsers.py 107-108): a truncated
keyed-archive blob consisting of the `bplist00` magic alone makes
`plistlib.loads` fail and the decoder raise instead of returning `""`. -/
theorem c2_counterexample :
    parserExtract bplistMagic = Except.error PyErr.textExtractionError := rfl

/-- C2 amended: the database-internal decoder
(`IMessageDatabase._extract_text_from_attributed_body`) returns a string
for every byte sequence and never raises; the `TextParser` decoder returns
a string on success but raises `TextExtractionError` on decode failure
(witnessed on a truncated keyed-archive blob) rather than returning the
empty string. -/
theorem c2_amended :
    (∀ blob : List ℕ, dbExtractBodyE blob = Except.ok (dbExtractBody blob)) ∧
      parserExtract bplistMagic = Except.error PyErr.textExtractionError :=
  ⟨fun _ => rfl, rfl⟩

/-- A store with one chat holding one message that has two attachments. -/
def dbC3 : Db :=
  { chat := [⟨1, some "g", some "ci", some "dn"⟩],
    handle := [],
    chat_handle_join := [],
    message := [{ rowid := 1, text := some "Hi", attributedBody := none, is_from_me := some 1,
                  handle_id := none, service := some "iMessage", date := some 0,
                  associated_message_guid := none, thread_originator_guid := none,
                  item_type := some 0 }],
    chat_message_join := [⟨1, 1⟩],
    attachment := [⟨1, some "p1", some "a1.txt", some "text/plain"⟩,
      ⟨2, some "p2", some "a2.txt", some "text/plain"⟩],
    message_attachment_join := [⟨1, 1⟩, ⟨1, 2⟩] }

/-- C3 counterexample: the chat of `dbC3` has exactly one message, yet the
CSV export emits two data rows — one per attachment, each carrying its own
attachment's name — because the query left-joins the attachment tables
(database.py 201-202).  The claim's "exactly one data row per message,
carrying only the first attachment" is false. -/
theorem c3_counterexample :
    (dbC3.chat_message_join.filter (fun j => j.chat_id == 1)).length = 1 ∧
      ((export_chat_to_csv dbC3 1).drop 1).length = 2 ∧
      ((export_chat_to_csv dbC3 1).drop 1).map (fun r => r.getD 6 "") = ["a1.txt", "a2.txt"] := by
  decide

theorem attLeft_length (db : Db) (mid : ℤ)
    (ha : (db.attachment.map AttachmentRow.rowid).Nodup) :
    (attLeft db mid).length =
      max 1 ((db.message_attachment_join.filter (fun j => j.message_id == mid)).length) := by
  unfold attLeft
  cases hmaj : db.message_attachment_join.filter (fun j => j.message_id == mid) with
  | nil => simp
  | cons maj t =>
    simp only [List.length_flatMap]
    rw [sum_map_ones]
    · simp
    · intro j _
      simp only [Function.comp]
      cases hfa : db.attachment.filter (fun a => a.rowid == j.attachment_id) with
      | nil => simp
      | cons a t2 =>
        have hlen := filter_key_length db.attachment AttachmentRow.rowid j.attachment_id ha
        rw [hfa] at hlen
        by_cases hm : j.attachment_id ∈ db.attachment.map AttachmentRow.rowid
        · rw [if_pos hm] at hlen
          show ((a :: t2).map some).length = 1
          rw [List.length_map]
          exact hlen
        · rw [if_neg hm] at hlen
          simp at hlen

theorem handleLeft_length (db : Db) (hid : Option ℤ)
    (hh : (db.handle.map HandleRow.rowid).Nodup) :
    (handleLeft db hid).length = 1 := by
  unfold handleLeft
  cases hid with
  | none =>
    have hnil : db.handle.filter (fun h => (none : Option ℤ) == some h.rowid) = [] := by
      apply List.filter_eq_nil_iff.mpr
      intro h _
      simp
    rw [hnil]
    rfl
  | some x =>
    have heq : db.handle.filter (fun h => (some x : Option ℤ) == some h.rowid) =
        db.handle.filter (fun h => h.rowid == x) := by
      apply List.filter_congr
      intro h _
      simp [eq_comm]
    rw [heq]
    have hlen := filter_key_length db.handle HandleRow.rowid x hh
    cases hf : db.handle.filter (fun h => h.rowid == x) with
    | nil => rfl
    | cons a t =>
      rw [hf] at hlen
      by_cases hm : x ∈ db.handle.map HandleRow.rowid
      · rw [if_pos hm] at hlen
        show ((a :: t).map some).length = 1
        rw [List.length_map]
        exact hlen
      · rw [if_neg hm] at hlen
        simp at hlen

theorem countP_const {α : Type} (l : List α) (b : Bool) :
    l.countP (fun _ => b) = if b then l.length else 0 := by
  induction l with
  | nil => cases b <;> simp
  | cons a t ih => cases b <;> simp_all [List.countP_cons]

theorem sum_map_const_of {α : Type} {l : List α} {f : α → ℕ} {K : ℕ}
    (h : ∀ a ∈ l, f a = K) : (l.map f).sum = l.length * K := by
  induction l with
  | nil => simp
  | cons a t ih =>
    simp only [List.map_cons, List.sum_cons, List.length_cons, h a (by simp),
      ih (fun x hx => h x (by simp [hx]))]
    ring

/-- C3 amended: the CSV export emits one data row per (message, associated
attachment-join row) pair — a message of the chat with `k ≥ 1` attachment
rows yields exactly `k` data rows, each with that attachment's fields, and
a message with none yields exactly one row with empty attachment fields.
(Stated for stores whose rowids and join rows are duplicate-free, as SQLite
primary keys guarantee.) -/
theorem c3_amended (db : Db) (cid mid : ℤ)
    (hm : (db.message.map MessageRow.rowid).Nodup)
    (hh : (db.handle.map HandleRow.rowid).Nodup)
    (ha : (db.attachment.map AttachmentRow.rowid).Nodup)
    (hcmj : db.chat_message_join.Nodup)
    (hmem : (⟨cid, mid⟩ : ChatMessageJoin) ∈ db.chat_message_join)
    (hmsg : mid ∈ db.message.map MessageRow.rowid) :
    (csvSortedRows db cid).countP (fun r => r.message_id == mid) =
      max 1 ((db.message_attachment_join.filter (fun j => j.message_id == mid)).length) ∧
    (export_chat_to_csv db cid).drop 1 = (csvSortedRows db cid).map csvRenderRow := by
  refine ⟨?_, rfl⟩
  set p : CsvJoinRow → Bool := fun r => r.message_id == mid with hp
  have hperm : (csvSortedRows db cid).countP p = (csvJoinRows db cid).countP p :=
    (List.perm_insertionSort csvOrd (csvJoinRows db cid)).countP_eq p
  rw [hperm]
  set K : ℕ :=
    max 1 ((db.message_attachment_join.filter (fun j => j.message_id == mid)).length) with hK
  unfold csvJoinRows
  rw [List.countP_flatMap]
  -- Each outer join row contributes K when it is the (cid, mid) pair and 0 otherwise.
  have hinner : ∀ j ∈ db.chat_message_join.filter (fun j => j.chat_id == cid),
      List.countP p ((db.message.filter (fun m => m.rowid == j.message_id)).flatMap fun m =>
        (handleLeft db m.handle_id).flatMap fun h =>
          (attLeft db m.rowid).map fun a =>
            { message_id := m.rowid, text := m.text, attributedBody := m.attributedBody,
              is_from_me := m.is_from_me, handle_identifier := h.map HandleRow.id,
              service := m.service, date := m.date,
              attachment_path := a.bind AttachmentRow.filename,
              attachment_name := a.bind AttachmentRow.transfer_name,
              attachment_mime := a.bind AttachmentRow.mime_type }) =
        if j.message_id == mid then K else 0 := by
    intro j _
    rw [List.countP_flatMap]
    by_cases hjm : j.message_id = mid
    · rw [if_pos (by simp [hjm])]
      have hone : ∀ m ∈ db.message.filter (fun m => m.rowid == j.message_id),
          (List.countP p ∘ fun m =>
            (handleLeft db m.handle_id).flatMap fun h =>
              (attLeft db m.rowid).map fun a =>
                { message_id := m.rowid, text := m.text, attributedBody := m.attributedBody,
                  is_from_me := m.is_from_me, handle_identifier := h.map HandleRow.id,
                  service := m.service, date := m.date,
                  attachment_path := a.bind AttachmentRow.filename,
                  attachment_name := a.bind AttachmentRow.transfer_name,
                  attachment_mime := a.bind AttachmentRow.mime_type }) m = K := by
        intro m hmf
        have hmrow : m.rowid = j.message_id := by
          have := List.of_mem_filter hmf
          simpa using this
        simp only [Function.comp]
        rw [List.countP_flatMap]
        have hha : ∀ h2 ∈ handleLeft db m.handle_id,
            (List.countP p ∘ fun h =>
              (attLeft db m.rowid).map fun a =>
                { message_id := m.rowid, text := m.text, attributedBody := m.attributedBody,
                  is_from_me := m.is_from_me, handle_identifier := h.map HandleRow.id,
                  service := m.service, date := m.date,
                  attachment_path := a.bind AttachmentRow.filename,
                  attachment_name := a.bind AttachmentRow.transfer_name,
                  attachment_mime := a.bind AttachmentRow.mime_type } : Option HandleRow → ℕ) h2 =
              K := by
          intro h2 _
          simp only [Function.comp]
          rw [List.countP_map]
          have : (p ∘ fun (a : Option AttachmentRow) =>
              ({ message_id := m.rowid, text := m.text, attributedBody := m.attributedBody,
                 is_from_me := m.is_from_me, handle_identifier := h2.map HandleRow.id,
                 service := m.service, date := m.date,
                 attachment_path := a.bind AttachmentRow.filename,
                 attachment_name := a.bind AttachmentRow.transfer_name,
                 attachment_mime := a.bind AttachmentRow.mime_type } : CsvJoinRow)) =
              fun _ => (m.rowid == mid) := rfl
          rw [this, countP_const, if_pos (by simp [hmrow, hjm])]
          rw [attLeft_length db m.rowid ha, hmrow, hjm]
        rw [sum_map_const_of hha, handleLeft_length db m.handle_id hh]
        omega
      rw [sum_map_const_of hone]
      have hflen := filter_key_length db.message MessageRow.rowid j.message_id hm
      rw [if_pos (by rw [hjm]; exact hmsg)] at hflen
      rw [hflen]
      omega
    · rw [if_neg (by simp [hjm])]
      have hzero : ∀ m ∈ db.message.filter (fun m => m.rowid == j.message_id),
          (List.countP p ∘ fun m =>
            (handleLeft db m.handle_id).flatMap fun h =>
              (attLeft db m.rowid).map fun a =>
                { message_id := m.rowid, text := m.text, attributedBody := m.attributedBody,
                  is_from_me := m.is_from_me, handle_identifier := h.map HandleRow.id,
                  service := m.service, date := m.date,
                  attachment_path := a.bind AttachmentRow.filename,
                  attachment_name := a.bind AttachmentRow.transfer_name,
                  attachment_mime := a.bind AttachmentRow.mime_type }) m = 0 := by
        intro m hmf
        have hmrow : m.rowid = j.message_id := by
          have := List.of_mem_filter hmf
          simpa using this
        simp only [Function.comp]
        rw [List.countP_flatMap]
        apply sum_map_const_of (K := 0) ?_ |>.trans (by ring)
        intro h2 _
        simp only [Function.comp]
        rw [List.countP_map]
        have : (p ∘ fun (a : Option AttachmentRow) =>
            ({ message_id := m.rowid, text := m.text, attributedBody := m.attributedBody,
               is_from_me := m.is_from_me, handle_identifier := h2.map HandleRow.id,
               service := m.service, date := m.date,
               attachment_path := a.bind AttachmentRow.filename,
               attachment_name := a.bind AttachmentRow.transfer_name,
               attachment_mime := a.bind AttachmentRow.mime_type } : CsvJoinRow)) =
            fun _ => (m.rowid == mid) := rfl
        rw [this, countP_const, if_neg (by simp [hmrow, hjm])]
      rw [sum_map_const_of hzero]
      ring
  rw [List.map_congr_left (by intro j hj; exact hinner j hj)]
  rw [sum_map_ite]
  have hcount : (db.chat_message_join.filter (fun j => j.chat_id == cid)).countP
      (fun j => j.message_id == mid) = 1 := by
    rw [List.countP_filter]
    have hcg : ∀ j ∈ db.chat_message_join,
        (((j.message_id == mid) && (j.chat_id == cid)) = true ↔
          (j == (⟨cid, mid⟩ : ChatMessageJoin)) = true) := by
      intro j _
      cases j with
      | mk c m2 =>
        simp [ChatMessageJoin.mk.injEq, and_comm]
    rw [List.countP_congr hcg]
    have : db.chat_message_join.countP (fun j => j == (⟨cid, mid⟩ : ChatMessageJoin)) =
        db.chat_message_join.count (⟨cid, mid⟩ : ChatMessageJoin) := rfl
    rw [this]
    exact List.count_eq_one_of_mem hcmj hmem
  rw [hcount]
  omega

/-- C3 witness: the amended row-count law evaluated on the two-attachment
store. -/
theorem c3_amended_witness :
    (csvSortedRows dbC3 1).countP (fun r => r.message_id == 1) =
      max 1 ((dbC3.message_attachment_join.filter (fun j => j.message_id == 1)).length) ∧
    (export_chat_to_csv dbC3 1).drop 1 = (csvSortedRows dbC3 1).map csvRenderRow :=
  c3_amended dbC3 1 1 (by decide) (by decide) (by decide) (by decide) (by decide) (by decide)

/-- C10: a CSV join row whose `is_from_me`, sender, service or attachment
columns are all NULL renders as the from-me flag `0` and empty strings —
never the literal text `None`, and never an error (the renderer is total). -/
theorem c10_csv_null_rendering (r : CsvJoinRow)
    (h1 : r.is_from_me = none) (h2 : r.handle_identifier = none) (h3 : r.service = none)
    (h4 : r.attachment_name = none) (h5 : r.attachment_mime = none)
    (h6 : r.attachment_path = none) :
    (csvRenderRow r).length = 9 ∧
    (csvRenderRow r).getD 2 "None" = "0" ∧
    (csvRenderRow r).getD 3 "None" = "" ∧
    (csvRenderRow r).getD 5 "None" = "" ∧
    (csvRenderRow r).getD 6 "None" = "" ∧
    (csvRenderRow r).getD 7 "None" = "" ∧
    (csvRenderRow r).getD 8 "None" = "" := by
  refine ⟨rfl, ?_, ?_, ?_, ?_, ?_, ?_⟩ <;>
    (simp [csvRenderRow, h1, h2, h3, h4, h5, h6]; try rfl)

/-- A CSV join row with NULL in every nullable column. -/
def rowC10 : CsvJoinRow :=
  { message_id := 7, text := none, attributedBody := none, is_from_me := none,
    handle_identifier := none, service := none, date := none,
    attachment_path := none, attachment_name := none, attachment_mime := none }

/-- C10 witness: the null-rendering law evaluated on an all-NULL row. -/
theorem c10_witness :
    (csvRenderRow rowC10).length = 9 ∧
    (csvRenderRow rowC10).getD 2 "None" = "0" ∧
    (csvRenderRow rowC10).getD 3 "None" = "" ∧
    (csvRenderRow rowC10).getD 5 "None" = "" ∧
    (csvRenderRow rowC10).getD 6 "None" = "" ∧
    (csvRenderRow rowC10).getD 7 "None" = "" ∧
    (csvRenderRow rowC10).getD 8 "None" = "" :=
  c10_csv_null_rendering rowC10 rfl rfl rfl rfl rfl rfl

/-- Case-sensitive substring containment — the relation the claim asserts
for participant search (spec wording), to be compared with the SQL `LIKE`
behaviour of the code. -/
def containsSub (needle hay : String) : Bool := hasSub needle.data hay.data

/-- A store with one chat whose only participant is the upper-case `ABC`. -/
def dbC5 : Db :=
  { chat := [⟨1, some "g", some "ci", none⟩],
    handle := [⟨1, "ABC"⟩],
    chat_handle_join := [⟨1, 1⟩],
    message := [], chat_message_join := [], attachment := [],
    message_attachment_join := [] }

/-- C5 counterexample: searching for the lower-case substring `abc` returns
the chat even though no participant identifier contains `abc`
case-sensitively — SQLite `LIKE` is ASCII-case-insensitive, so the claimed
"if and only if a participant contains the substring (case-sensitive)" is
false. -/
theorem c5_counterexample :
    (find_chat_by_participant dbC5 "abc").length = 1 ∧
      dbC5.handle = [⟨1, "ABC"⟩] ∧
      containsSub "abc" "ABC" = false := by decide

/-- C5 amended: a chat is returned exactly when one of its joined
participant identifiers matches the `LIKE '%substring%'` pattern
(ASCII-case-insensitive, `%`/`_` acting as wildcards); each chat appears
at most once when chat rowids are unique; and the `participants` annotation
is the comma-join of exactly the participants that matched the filter (not
the chat's full participant list). -/
theorem filterMap_rowid_nodup (f : ChatRow → Option FoundChat)
    (hf : ∀ c fc, f c = some fc → fc.rowid = c.rowid)
    (l : List ChatRow) (h : (l.map ChatRow.rowid).Nodup) :
    ((l.filterMap f).map FoundChat.rowid).Nodup := by
  induction l with
  | nil => simp
  | cons c t ih =>
    simp only [List.map_cons, List.nodup_cons] at h
    obtain ⟨hna, ht⟩ := h
    rw [List.filterMap_cons]
    cases hfc : f c with
    | none => exact ih ht
    | some fc =>
      simp only [List.map_cons, List.nodup_cons]
      refine ⟨?_, ih ht⟩
      intro hmem
      rw [List.mem_map] at hmem
      obtain ⟨fc2, hfc2, hrow⟩ := hmem
      rw [List.mem_filterMap] at hfc2
      obtain ⟨c2, hc2, hfc2⟩ := hfc2
      apply hna
      rw [List.mem_map]
      exact ⟨c2, hc2, by rw [← hf c2 fc2 hfc2, hrow, hf c fc hfc]⟩

theorem c5_amended (db : Db) (sub : String) :
    (∀ fc ∈ find_chat_by_participant db sub, ∃ c ∈ db.chat, fc.rowid = c.rowid ∧
        matchingParticipants db sub c.rowid ≠ [] ∧
        fc.participants = some (String.intercalate ", " (matchingParticipants db sub c.rowid))) ∧
    (∀ c ∈ db.chat, matchingParticipants db sub c.rowid ≠ [] →
        ∃ fc ∈ find_chat_by_participant db sub, fc.rowid = c.rowid) ∧
    ((db.chat.map ChatRow.rowid).Nodup →
        ((find_chat_by_participant db sub).map FoundChat.rowid).Nodup) ∧
    (∀ cid : ℤ, ∀ p : String, p ∈ matchingParticipants db sub cid ↔
      ∃ j ∈ db.chat_handle_join, j.chat_id = cid ∧
        ∃ h ∈ db.handle, h.rowid = j.handle_id ∧ h.id = p ∧
          likeMatch (likeParam sub) p.data = true) := by
  refine ⟨?_, ?_, ?_, ?_⟩
  · intro fc hfc
    unfold find_chat_by_participant at hfc
    rw [List.mem_filterMap] at hfc
    obtain ⟨c, hc, hfc⟩ := hfc
    refine ⟨c, hc, ?_⟩
    cases hmp : matchingParticipants db sub c.rowid with
    | nil => rw [hmp] at hfc; exact absurd hfc (by simp)
    | cons q qs =>
      rw [hmp] at hfc
      simp only [Option.some.injEq] at hfc
      subst hfc
      exact ⟨rfl, by simp [hmp], by simp [hmp]⟩
  · intro c hc hne
    unfold find_chat_by_participant
    cases hmp : matchingParticipants db sub c.rowid with
    | nil => exact absurd hmp hne
    | cons q qs =>
      refine ⟨{ rowid := c.rowid, guid := c.guid, chat_identifier := c.chat_identifier,
                display_name := c.display_name,
                participants := some (String.intercalate ", " (q :: qs)) },
        List.mem_filterMap.mpr ⟨c, hc, by rw [hmp]⟩, rfl⟩
  · intro hnd
    unfold find_chat_by_participant
    apply filterMap_rowid_nodup _ ?_ _ hnd
    intro c fc h
    revert h
    cases hmp : matchingParticipants db sub c.rowid with
    | nil => intro h; exact absurd h (by simp)
    | cons q qs =>
      intro h
      simp only [Option.some.injEq] at h
      subst h
      rfl
  · intro cid p
    unfold matchingParticipants
    constructor
    · intro hp
      rw [List.mem_flatMap] at hp
      obtain ⟨j, hj, hp⟩ := hp
      rw [List.mem_filterMap] at hp
      obtain ⟨h, hh, hp⟩ := hp
      rw [List.mem_filter] at hj
      rw [List.mem_filter] at hh
      by_cases hl : likeMatch (likeParam sub) h.id.data = true
      · rw [if_pos hl] at hp
        simp only [Option.some.injEq] at hp
        subst hp
        exact ⟨j, hj.1, by simpa using hj.2, h, hh.1, by simpa using hh.2, rfl, hl⟩
      · rw [if_neg hl] at hp
        exact absurd hp (by simp)
    · intro ⟨j, hj, hjc, h, hh, hhr, hhp, hl⟩
      rw [List.mem_flatMap]
      refine ⟨j, List.mem_filter.mpr ⟨hj, by simp [hjc]⟩, ?_⟩
      rw [List.mem_filterMap]
      refine ⟨h, List.mem_filter.mpr ⟨hh, by simp [hhr]⟩, ?_⟩
      rw [hhp, if_pos (hhp ▸ hl)]

/-- C5 witness: the amended law evaluated on the `ABC` store — the chat is
found for the case-folded substring and annotated with the matching
participant. -/
theorem c5_witness :
    (∃ fc ∈ find_chat_by_participant dbC5 "abc", fc.rowid = 1) ∧
      ((find_chat_by_participant dbC5 "abc").map FoundChat.rowid).Nodup ∧
      ("ABC" ∈ matchingParticipants dbC5 "abc" 1) := by
  refine ⟨?_, ?_, ?_⟩
  · obtain ⟨fc, hfc, hr⟩ :=
      (c5_amended dbC5 "abc").2.1 ⟨1, some "g", some "ci", none⟩ (by decide) (by decide)
    exact ⟨fc, hfc, hr⟩
  · exact (c5_amended dbC5 "abc").2.2.1 (by decide)
  · exact ((c5_amended dbC5 "abc").2.2.2 1 "ABC").mpr
      ⟨⟨1, 1⟩, by decide, rfl, ⟨1, "ABC"⟩, by decide, rfl, rfl, by decide⟩

instance {ε α : Type} [DecidableEq ε] [DecidableEq α] : DecidableEq (Except ε α) := fun a b =>
  match a, b with
  | Except.ok x, Except.ok y =>
    match decEq x y with
    | isTrue h => isTrue (by rw [h])
    | isFalse h => isFalse (fun hh => h (by injection hh))
  | Except.ok _, Except.error _ => isFalse (fun hh => Except.noConfusion hh)
  | Except.error _, Except.ok _ => isFalse (fun hh => Except.noConfusion hh)
  | Except.error x, Except.error y =>
    match decEq x y with
    | isTrue h => isTrue (by rw [h])
    | isFalse h => isFalse (fun hh => h (by injection hh))

theorem listLeB_refl (l : List Char) : listLeB l l = true := by
  induction l with
  | nil => rfl
  | cons a t ih => simp [listLeB, ih]

/-- A successful JSON export is the descending-key sort of the grouped
result, and when it holds at least two chats every chat key is non-null
(otherwise Python's sort would have raised `TypeError`). -/
theorem json_ok_eq (db : Db) (out : List JsonChat)
    (h : export_all_chats_to_json db = Except.ok out) :
    out = List.insertionSort chatOrd (jsonResultUnsorted db) ∧
      ((jsonResultUnsorted db).length < 2 ∨
        ∀ c ∈ jsonResultUnsorted db, chatKey c ≠ none) := by
  unfold export_all_chats_to_json at h
  split at h
  · dsimp only at h
    split at h
    · exact absurd h (by simp)
    · rename_i hguard
      constructor
      · simp only [Except.ok.injEq] at h
        exact h.symm
      · rw [not_and_or] at hguard
        rcases hguard with h1 | h2
        · left
          omega
        · right
          intro c hc hk
          apply h2
          rw [List.any_eq_true]
          exact ⟨c, hc, by simp [hk]⟩
  · exact absurd h (by simp)

/-- Every chat of a successful export is one of the grouped chat records. -/
theorem json_ok_mem (db : Db) (out : List JsonChat)
    (h : export_all_chats_to_json db = Except.ok out) :
    ∀ c ∈ out, c ∈ jsonResultUnsorted db := by
  intro c hc
  rw [(json_ok_eq db out h).1] at hc
  exact (List.mem_insertionSort chatOrd).mp hc

/-- The messages of every grouped chat record are sorted by the
string-timestamp key. -/
theorem json_msgs_sorted (db : Db) (c : JsonChat) (hc : c ∈ jsonResultUnsorted db) :
    List.Sorted msgStrOrd c.messages := by
  unfold jsonResultUnsorted at hc
  rw [List.mem_map] at hc
  obtain ⟨x, _, rfl⟩ := hc
  exact List.sorted_insertionSort msgStrOrd _

/-- Every message record of a grouped chat carries either a null timestamp
or a rendered one. -/
theorem json_msg_timestamp_shape (db : Db) (c : JsonChat) (hc : c ∈ jsonResultUnsorted db)
    (msg : JsonMsg) (hm : msg ∈ c.messages) :
    msg.timestamp = none ∨ ∃ n : ℤ, msg.timestamp = some (format_timestamp_ns n) := by
  unfold jsonResultUnsorted at hc
  rw [List.mem_map] at hc
  obtain ⟨x, _, rfl⟩ := hc
  simp only at hm
  rw [List.mem_insertionSort, List.mem_map] at hm
  obtain ⟨row, _, rfl⟩ := hm
  unfold mkJsonMsg
  simp only
  cases hns : apple_to_unix_ns row.date with
  | none => left; rfl
  | some n =>
    by_cases h0 : n = 0
    · left
      simp [h0]
    · right
      exact ⟨n, by simp [h0]⟩

/-- A store whose only message has a null text column but a decodable
attributed body. -/
def dbC4 : Db :=
  { chat := [⟨1, some "g", none, none⟩],
    handle := [], chat_handle_join := [],
    message := [{ rowid := 1, text := none,
                  attributedBody := some (asciiBytes "Hello there my friend."),
                  is_from_me := some 0, handle_id := none, service := some "iMessage",
                  date := some 0, associated_message_guid := none,
                  thread_originator_guid := none, item_type := some 0 }],
    chat_message_join := [⟨1, 1⟩], attachment := [], message_attachment_join := [] }

/-- C4 counterexample: the only message of `dbC4` has no text column but an
attributed body the heuristic decoder turns into a sentence; the claim says
the JSON record's body text is resolved from the decoded attributed body,
yet the export emits a null text — the hierarchical export never consults
`attributedBody` (its query, database.py 269-281, does not even select it). -/
theorem c4_counterexample :
    ((export_all_chats_to_json dbC4).toOption.getD []).map
        (fun c => c.messages.map (fun m => m.text)) = [[none]] ∧
      dbExtractBody (asciiBytes "Hello there my friend.") = "Hello there my friend." := by
  decide

/-- C4 amended: in the hierarchical export every message record's `text` is
the raw `text` column of its message row — null stays null and the
attributed-body column is never decoded (only the tabular export does
that). -/
theorem c4_amended (db : Db) :
    (∀ out, export_all_chats_to_json db = Except.ok out →
      ∀ c ∈ out, c ∈ jsonResultUnsorted db) ∧
    (∀ c ∈ jsonResultUnsorted db, ∀ msg ∈ c.messages,
      ∃ m ∈ db.message, msg.id = m.rowid ∧ msg.text = m.text) := by
  constructor
  · intro out h
    exact json_ok_mem db out h
  · intro c hc msg hm
    unfold jsonResultUnsorted at hc
    rw [List.mem_map] at hc
    obtain ⟨x, _, rfl⟩ := hc
    simp only at hm
    rw [List.mem_insertionSort, List.mem_map] at hm
    obtain ⟨row, hrow, rfl⟩ := hm
    rw [List.mem_filter] at hrow
    obtain ⟨hrow, _⟩ := hrow
    unfold jsonMsgRows at hrow
    rw [List.mem_insertionSort, List.mem_flatMap] at hrow
    obtain ⟨j, _, hrow⟩ := hrow
    rw [List.mem_flatMap] at hrow
    obtain ⟨m, hm2, hrow⟩ := hrow
    rw [List.mem_map] at hrow
    obtain ⟨h2, _, rfl⟩ := hrow
    rw [List.mem_filter] at hm2
    exact ⟨m, hm2.1, rfl, rfl⟩

/-- The first chat record the grouped `dbC4` export produces. -/
def chatC4 : JsonChat :=
  (jsonResultUnsorted dbC4).headD ⟨none, none, none, [], []⟩

/-- The first message record of `chatC4`. -/
def msgC4 : JsonMsg :=
  chatC4.messages.headD ⟨0, none, false, none, none, none, none, none, none, []⟩

/-- C4 witness: the amended law evaluated on `dbC4`. -/
theorem c4_witness :
    ∃ m ∈ dbC4.message, msgC4.id = m.rowid ∧ msgC4.text = m.text :=
  (c4_amended dbC4).2 chatC4 (by decide) msgC4 (by decide)

/-- A store whose two messages land on the same instant — one stored in
seconds, one in nanoseconds — with rowids opposing the stored order. -/
def dbC6 : Db :=
  { chat := [⟨1, some "g", none, none⟩],
    handle := [], chat_handle_join := [],
    message := [
      { rowid := 3, text := some "b", attributedBody := none, is_from_me := some 0,
        handle_id := none, service := none, date := some 2000000000000,
        associated_message_guid := none, thread_originator_guid := none, item_type := some 0 },
      { rowid := 5, text := some "a", attributedBody := none, is_from_me := some 0,
        handle_id := none, service := none, date := some 2000,
        associated_message_guid := none, thread_originator_guid := none, item_type := some 0 }],
    chat_message_join := [⟨1, 3⟩, ⟨1, 5⟩],
    attachment := [], message_attachment_join := [] }

/-- C6 counterexample: the JSON export of `dbC6` emits the two messages
with identical timestamps but identifiers 5 then 3 — the SQL pre-sort puts
the raw date 2000 (id 5) before 2·10¹² (id 3), both convert to the same
instant, and the Python re-sort by timestamp string is stable — so the
sequence is not non-decreasing in (timestamp, message identifier). -/
theorem c6_counterexample :
    ((export_all_chats_to_json dbC6).toOption.getD []).map
        (fun c => c.messages.map (fun m => (m.id, m.timestamp))) =
      [[(5, some "2001-01-01T00:33:20+00:00"), (3, some "2001-01-01T00:33:20+00:00")]] ∧
      ¬ ((5 : ℤ) ≤ 3) := by decide

/-- C6 amended: the tabular export is ordered non-decreasingly by
(raw stored date with null least, message identifier); the hierarchical
export's messages are ordered non-decreasingly by the rendered timestamp
string (empty for null) — but ties in that string keep the underlying
(date, rowid) order, which need not be non-decreasing in the message
identifier. -/
theorem c6_amended :
    (∀ (db : Db) (cid : ℤ), List.Sorted csvOrd (csvSortedRows db cid)) ∧
    (∀ (db : Db) (out : List JsonChat), export_all_chats_to_json db = Except.ok out →
      ∀ c ∈ out, List.Sorted msgStrOrd c.messages) :=
  ⟨fun _ _ => List.sorted_insertionSort csvOrd _,
   fun db out h c hc => json_msgs_sorted db c (json_ok_mem db out h c hc)⟩

/-- The JSON output of `dbC6`. -/
def outC6 : List JsonChat := (export_all_chats_to_json dbC6).toOption.getD []

/-- The single chat record of `outC6`. -/
def chatC6 : JsonChat := outC6.headD ⟨none, none, none, [], []⟩

/-- C6 witness: the amended ordering law evaluated on concrete stores. -/
theorem c6_witness :
    List.Sorted csvOrd (csvSortedRows dbC6 1) ∧ List.Sorted msgStrOrd chatC6.messages :=
  ⟨c6_amended.1 dbC6 1, c6_amended.2 dbC6 outC6 (by decide) chatC6 (by decide)⟩

theorem listLeB_data_nil (s : String) (h : s ≠ "") : listLeB s.data [] = false := by
  cases s with
  | mk l =>
    cases l with
    | nil => exact absurd rfl h
    | cons a t => rfl

/-- C7: in a successful hierarchical export, a chat whose (string) key —
its last message's timestamp — is strictly greater than another's is listed
strictly earlier, and a chat with no messages is listed after every chat
that has messages.  "Later" is the order of the ISO timestamp strings the
export itself emits (lexicographic, which for a fixed UTC offset is
chronological order). -/
theorem c7_chat_ordering (db : Db) (out : List JsonChat)
    (h : export_all_chats_to_json db = Except.ok out) :
    (∀ i j, ∀ (hi : i < out.length), ∀ (hj : j < out.length),
        listLeB ((chatKey out[i]).getD "").data ((chatKey out[j]).getD "").data = false →
        i < j) ∧
    (∀ i j, ∀ (hi : i < out.length), ∀ (hj : j < out.length),
        (out[i]).messages = [] → (out[j]).messages ≠ [] → j < i) := by
  obtain ⟨heq, hkeys⟩ := json_ok_eq db out h
  have hsorted : List.Sorted chatOrd out := by
    rw [heq]
    exact List.sorted_insertionSort chatOrd _
  have hpair := List.pairwise_iff_getElem.mp hsorted
  have hpart1 : ∀ i j, ∀ (hi : i < out.length), ∀ (hj : j < out.length),
      listLeB ((chatKey out[i]).getD "").data ((chatKey out[j]).getD "").data = false →
      i < j := by
    intro i j hi hj hlt
    rcases Nat.lt_or_ge i j with h1 | h2
    · exact h1
    · exfalso
      rcases Nat.eq_or_lt_of_le h2 with he | hgt
      · subst he
        rw [listLeB_refl] at hlt
        exact Bool.noConfusion hlt
      · have hp := hpair j i hj hi hgt
        unfold chatOrd at hp
        rw [hp] at hlt
        exact Bool.noConfusion hlt
  refine ⟨hpart1, ?_⟩
  intro i j hi hj hie hjne
  have hne : i ≠ j := by
    intro e
    subst e
    exact hjne hie
  have hlen2 : 2 ≤ out.length := by omega
  have hlenr : out.length = (jsonResultUnsorted db).length := by
    rw [heq]
    exact (List.perm_insertionSort chatOrd _).length_eq
  rcases hkeys with hsmall | hall
  · omega
  · have hperm : out.Perm (jsonResultUnsorted db) := by
      rw [heq]
      exact List.perm_insertionSort chatOrd _
    have hmemj : out[j] ∈ jsonResultUnsorted db :=
      hperm.mem_iff.mp (List.getElem_mem hj)
    have hkj := hall _ hmemj
    have hlast := List.getLast?_eq_getLast_of_ne_nil hjne
    have hck : chatKey out[j] = ((out[j]).messages.getLast hjne).timestamp := by
      unfold chatKey
      rw [hlast]
    have hmem2 : (out[j]).messages.getLast hjne ∈ (out[j]).messages :=
      List.getLast_mem hjne
    have hshape := json_msg_timestamp_shape db out[j] hmemj _ hmem2
    rcases hshape with hnone | ⟨n, hsome⟩
    · exact absurd (hck.trans hnone) hkj
    · apply hpart1 j i hj hi
      have hki : chatKey out[i] = some "" := by
        simp [chatKey, hie]
      rw [hck, hsome, hki]
      simp only [Option.getD_some]
      exact listLeB_data_nil _ (format_timestamp_ns_ne_empty n)

/-- A store with two single-message chats (the second more recent) and one
empty chat. -/
def dbC7 : Db :=
  { chat := [⟨1, some "g1", none, none⟩, ⟨2, some "g2", none, none⟩, ⟨3, some "g3", none, none⟩],
    handle := [], chat_handle_join := [],
    message := [
      { rowid := 1, text := some "x", attributedBody := none, is_from_me := some 0,
        handle_id := none, service := none, date := some 100,
        associated_message_guid := none, thread_originator_guid := none, item_type := some 0 },
      { rowid := 2, text := some "y", attributedBody := none, is_from_me := some 0,
        handle_id := none, service := none, date := some 200,
        associated_message_guid := none, thread_originator_guid := none, item_type := some 0 }],
    chat_message_join := [⟨1, 1⟩, ⟨2, 2⟩],
    attachment := [], message_attachment_join := [] }

/-- The JSON output of `dbC7`. -/
def outC7 : List JsonChat := (export_all_chats_to_json dbC7).toOption.getD []

/-- C7 witness: the ordering law applied to `dbC7` — the chat with the
later key precedes (position 0 before 1) and the empty chat is listed after
the message-bearing chat (position 2 after 0). -/
theorem c7_witness :
    export_all_chats_to_json dbC7 = Except.ok outC7 ∧ (0 : ℕ) < 1 ∧ (0 : ℕ) < 2 :=
  ⟨by decide,
   (c7_chat_ordering dbC7 outC7 (by decide)).1 0 1 (by decide) (by decide) (by decide),
   (c7_chat_ordering dbC7 outC7 (by decide)).2 2 0 (by decide) (by decide) (by decide)
     (by decide)⟩

/-- The filesystem/collaborator environment for the C8 counterexample: one
file exists, outside the attachment tree, reachable through `~` expansion. -/
def envC8 : CopyEnv :=
  { present := fun p => p == "/home/user/secret.png",
    detectMime := fun _ => "text/plain",
    home := "/home/user",
    imageOk := fun _ => false,
    copyOk := fun _ => true }

/-- An attachment whose stored path begins with `~`. -/
def attC8 : JsonAtt := { name := some "secret.png", mime := none, path := some "~/secret.png" }

/-- C8 counterexample: the path `~/secret.png` survives the validation
(after `normpath` it starts with neither `/` nor `../`), is expanded to
`/home/user/secret.png` — outside the attachment tree — and is
materialized.  The claim that materialization rejects every path rooted
outside the attachment tree, and never reads a source outside it, is
false. -/
theorem c8_counterexample :
    copy_attachment envC8 "/out" "/home/user/Library/Messages/Attachments" attC8 7 =
      Except.ok (some ("/home/user/secret.png",
        { copied_path := "attachments/documents/7_secret.png", mime := "text/plain",
          name := "secret.png" })) ∧
      isPre ("/home/user/Library/Messages/Attachments/".data)
        ("/home/user/secret.png".data) = false := by
  decide

/-- C8 amended: materialization rejects any attachment path that normalizes
to an absolute path or to one beginning with `../`; every source it does
read is the `~`-expansion of the stored path or its join under the
attachment root — `~`-expanding (or working-directory-relative) paths can
therefore still escape the attachment tree, as the counterexample shows. -/
theorem c8_amended (env : CopyEnv) (outputDir attachmentRoot : String) (att : JsonAtt)
    (mid : ℤ) (p : String) (hp : att.path = some p) :
    ((isPre ['/'] (normpath p).data = true ∨ isPre ['.', '.', '/'] (normpath p).data = true) →
      copy_attachment env outputDir attachmentRoot att mid = Except.ok none) ∧
    (∀ src rec, copy_attachment env outputDir attachmentRoot att mid =
        Except.ok (some (src, rec)) →
      src = expanduser env.home (normpath p) ∨
        src = pathJoin attachmentRoot (normpath p)) := by
  have hsrc : ∀ pn, resolvedSource env attachmentRoot pn = expanduser env.home pn ∨
      resolvedSource env attachmentRoot pn = pathJoin attachmentRoot pn := by
    intro pn
    unfold resolvedSource
    by_cases hpp : env.present (expanduser env.home pn) = true
    · left
      simp [hpp]
    · right
      simp [hpp]
  constructor
  · intro hpre
    unfold copy_attachment
    rw [hp]
    dsimp only
    by_cases h0 : p = ""
    · rw [if_pos h0]
    · rw [if_neg h0, if_pos ?_]
      rcases hpre with h | h <;> simp [h]
  · intro src rec hok
    unfold copy_attachment at hok
    rw [hp] at hok
    dsimp only at hok
    by_cases h0 : p = ""
    · rw [if_pos h0] at hok
      exact absurd hok (by simp)
    · rw [if_neg h0] at hok
      by_cases hpre : (isPre ['/'] (normpath p).data || isPre ['.', '.', '/'] (normpath p).data) =
          true
      · rw [if_pos hpre] at hok
        exact absurd hok (by simp)
      · rw [if_neg hpre] at hok
        by_cases hex : (!env.present (resolvedSource env attachmentRoot (normpath p))) = true
        · rw [if_pos hex] at hok
          exact absurd hok (by simp)
        · rw [if_neg hex] at hok
          have hsp : src = resolvedSource env attachmentRoot (normpath p) := by
            by_cases himg : isPre ("image/".data)
                (lowerAscii (env.detectMime (resolvedSource env attachmentRoot
                  (normpath p)))).data = true
            · rw [if_pos himg] at hok
              by_cases hio : env.imageOk (resolvedSource env attachmentRoot (normpath p)) = true
              · rw [if_pos hio] at hok
                simp only [Except.ok.injEq, Option.some.injEq, Prod.mk.injEq] at hok
                exact hok.1.symm
              · rw [if_neg hio] at hok
                by_cases hco : env.copyOk (resolvedSource env attachmentRoot (normpath p)) = true
                · rw [if_pos hco] at hok
                  simp only [Except.ok.injEq, Option.some.injEq, Prod.mk.injEq] at hok
                  exact hok.1.symm
                · rw [if_neg hco] at hok
                  exact absurd hok (by simp)
            · rw [if_neg himg] at hok
              by_cases hco : env.copyOk (resolvedSource env attachmentRoot (normpath p)) = true
              · rw [if_pos hco] at hok
                simp only [Except.ok.injEq, Option.some.injEq, Prod.mk.injEq] at hok
                exact hok.1.symm
              · rw [if_neg hco] at hok
                exact absurd hok (by simp)
          rw [hsp]
          exact hsrc (normpath p)

/-- C8 witness: the rejection half of the amended law applied to a
traversal path, together with the source-containment disjunction at the
counterexample's input. -/
theorem c8_witness :
    copy_attachment envC8 "/out" "/home/user/Library/Messages/Attachments"
        { name := none, mime := none, path := some "a/../../evil" } 7 = Except.ok none ∧
      ("/home/user/secret.png" = expanduser envC8.home (normpath "~/secret.png") ∨
        "/home/user/secret.png" =
          pathJoin "/home/user/Library/Messages/Attachments" (normpath "~/secret.png")) := by
  constructor
  · exact (c8_amended envC8 "/out" "/home/user/Library/Messages/Attachments"
      { name := none, mime := none, path := some "a/../../evil" } 7 "a/../../evil" rfl).1
      (Or.inr (by decide))
  · exact (c8_amended envC8 "/out" "/home/user/Library/Messages/Attachments" attC8 7
      "~/secret.png" rfl).2 "/home/user/secret.png"
      { copied_path := "attachments/documents/7_secret.png", mime := "text/plain",
        name := "secret.png" } (by decide)

theorem mapM_ok_of_forall {α β : Type} (l : List α) (f : α → Except PyErr β)
    (h : ∀ a ∈ l, ∃ r, f a = Except.ok r) :
    ∃ out, l.mapM f = Except.ok out ∧ out.length = l.length := by
  induction l with
  | nil => exact ⟨[], rfl, rfl⟩
  | cons a t ih =>
    obtain ⟨r, hr⟩ := h a (by simp)
    obtain ⟨out, hout, hlen⟩ := ih (fun x hx => h x (by simp [hx]))
    refine ⟨r :: out, ?_, by simp [hlen]⟩
    rw [List.mapM_cons, hr, hout]
    rfl

/-- C9: an attachment whose resolved source path does not exist — under
either resolution — materializes to "no result" without raising, and the
message loop of the HTML export completes over all messages whenever every
individual materialization returns (successfully or with no result). -/
theorem c9_missing_attachment (env : CopyEnv) (outputDir attachmentRoot : String)
    (att : JsonAtt) (mid : ℤ) (p : String) (hp : att.path = some p)
    (h1 : env.present (expanduser env.home (normpath p)) = false)
    (h2 : env.present (pathJoin attachmentRoot (normpath p)) = false) :
    copy_attachment env outputDir attachmentRoot att mid = Except.ok none ∧
    (∀ msgs : List JsonMsg,
      (∀ msg ∈ msgs, ∀ a ∈ msg.attachments, ∃ r,
          copy_attachment env outputDir attachmentRoot a msg.id = Except.ok r) →
      ∃ out, export_chat_process env outputDir attachmentRoot msgs = Except.ok out ∧
        out.length = msgs.length) := by
  constructor
  · unfold copy_attachment
    rw [hp]
    dsimp only
    by_cases h0 : p = ""
    · rw [if_pos h0]
    · rw [if_neg h0]
      by_cases hpre : (isPre ['/'] (normpath p).data ||
          isPre ['.', '.', '/'] (normpath p).data) = true
      · rw [if_pos hpre]
      · rw [if_neg hpre]
        have hres : resolvedSource env attachmentRoot (normpath p) =
            pathJoin attachmentRoot (normpath p) := by
          unfold resolvedSource
          simp [h1]
        rw [if_pos (by rw [hres, h2]; rfl)]
  · intro msgs hall
    unfold export_chat_process
    apply mapM_ok_of_forall
    intro msg hmsg
    by_cases hatt : msg.attachments = []
    · refine ⟨{ base := msg, attachments := [] }, ?_⟩
      rw [if_pos hatt]
      rfl
    · obtain ⟨copies, hcopies, _⟩ := mapM_ok_of_forall msg.attachments
        (fun a => copy_attachment env outputDir attachmentRoot a msg.id)
        (fun a ha => hall msg hmsg a ha)
      refine ⟨⟨msg, copies.filterMap (fun c => c.map Prod.snd)⟩, ?_⟩
      rw [if_neg hatt]
      rw [hcopies]
      rfl

/-- An environment where no path exists. -/
def envC9 : CopyEnv :=
  { present := fun _ => false, detectMime := fun _ => "text/plain", home := "/home/user",
    imageOk := fun _ => false, copyOk := fun _ => false }

/-- An attachment with a store-relative path. -/
def attC9 : JsonAtt := { name := some "img.png", mime := none, path := some "ab/img.png" }

/-- A message carrying the missing attachment. -/
def msgC9 : JsonMsg :=
  { id := 3, timestamp := none, from_me := false, sender := none, service := none,
    text := none, item_type := none, associated_message_guid := none,
    thread_originator_guid := none, attachments := [attC9] }

/-- C9 witness: the missing-attachment law applied to an empty filesystem. -/
theorem c9_witness :
    copy_attachment envC9 "/out" "/root2" attC9 3 = Except.ok none ∧
      ∃ out, export_chat_process envC9 "/out" "/root2" [msgC9] = Except.ok out ∧
        out.length = 1 := by
  obtain ⟨h1, h2⟩ := c9_missing_attachment envC9 "/out" "/root2" attC9 3 "ab/img.png" rfl
    (by decide) (by decide)
  refine ⟨h1, h2 [msgC9] ?_⟩
  intro msg hmsg a ha
  rw [List.mem_singleton] at hmsg
  subst hmsg
  rw [show msgC9.attachments = [attC9] from rfl, List.mem_singleton] at ha
  subst ha
  exact ⟨none, by decide⟩

end IMX
